import Mathlib

/-!
Shallow embedding of the `react-native-toolbox` library, covering the
upload orchestration routine (`uploadFiles`, `determineFileOrImage` in
`src/FS/index.tsx`) and the picker response handlers
(`handleImageLibraryResponse` in `src/FS/index.tsx`,
`handleCameraResponse` in `src/Camera/index.tsx`,
`handleFilePickerPromise` in `src/FS/index.tsx`).

Asynchronous JavaScript is modelled deterministically: each `fetch` call
is an element of type `Except ε α` (`.ok` = the promise fulfilled with a
response, `.error` = the promise rejected), supplied by an environment
function `net`.  `Promise.all` and `Promise.allSettled` are modelled by
`promiseAll` and `allSettled`; the "first encountered error" of
`Promise.all` is the first rejection in list order.  A JavaScript
function that may reject returns `Except ε _`; `uploadFiles`, which is
`async`, returns `Except ε (UploadFileResponse ε α)`, where an `.error`
result would mean the returned promise rejects.
-/

namespace Toolbox

/-- Model of the payload record carried by a `FileToUpload`
(`Asset & DocumentPickerResponse`): the fields actually read by
`uploadFiles` are `uri`, `type`, `fileName` and `name`.  The claims under
study restrict attention to payloads that carry a MIME-type string, so
`type` is a `String`. -/
structure FileData where
  uri : String
  type : String
  fileName : Option String
  name : Option String
deriving Repr, DecidableEq

/-- Model of `FileToUpload = { data, uploadUrl }` from `src/FS/index.tsx`. -/
structure FileToUpload where
  data : FileData
  uploadUrl : String
deriving Repr, DecidableEq

/-- Model of the single multipart form field appended by `uploadFiles`
(lines 124-128 of `src/FS/index.tsx`): the field name chosen by
`determineFileOrImage`, and the `uri`/`type`/`name` triple. -/
structure FormField where
  fieldName : String
  uri : String
  type : String
  name : Option String
deriving Repr, DecidableEq

/-- Model of one HTTP request issued by `uploadFiles`: the destination
URL and the multipart body (`fetch(file.uploadUrl, { method: POST, body })`). -/
structure Request where
  url : String
  field : FormField
deriving Repr, DecidableEq

/-- Model of `pat.isPrefixOf s` on character lists, used to build the
model of JavaScript `String.prototype.includes`. -/
def charsStartWith : List Char → List Char → Bool
  | [], _ => true
  | _ :: _, [] => false
  | p :: ps, c :: cs => p == c && charsStartWith ps cs

/-- Occurrence of `pat` as a contiguous run inside `s`, by scanning every
suffix of `s`. -/
def charsIncludes (pat : List Char) : List Char → Bool
  | [] => pat.isEmpty
  | c :: rest => charsStartWith pat (c :: rest) || charsIncludes pat rest

/-- Model of JavaScript `s.includes(pat)`: `pat` occurs as a substring of `s`. -/
def jsIncludes (s pat : String) : Bool :=
  charsIncludes pat.toList s.toList

/-- Translation of `determineFileOrImage` (line 114-115 of
`src/FS/index.tsx`): `fileType.includes('image') ? 'image' : 'file'`. -/
def determineFileOrImage (fileType : String) : String :=
  if jsIncludes fileType "image" then "image" else "file"

/-- Model of the JavaScript `a || b` fallback on optional strings, where
`undefined` and the empty string are falsy (used for
`file.data.fileName || file.data.name`). -/
def jsOrString : Option String → Option String → Option String
  | some s, b => if s = "" then b else some s
  | none, b => b

/-- Translation of the request construction in `uploadFiles`
(lines 121-134 of `src/FS/index.tsx`): build the multipart form with one
field named by `determineFileOrImage`, and target the item's `uploadUrl`. -/
def mkRequest (file : FileToUpload) : Request :=
  { url := file.uploadUrl
    field :=
      { fieldName := determineFileOrImage file.data.type
        uri := file.data.uri
        type := file.data.type
        name := jsOrString file.data.fileName file.data.name } }

/-- Model of a `PromiseSettledResult`: the value produced by
`Promise.allSettled` for one request. -/
inductive SettledResult (ε α : Type) where
  | fulfilled (value : α)
  | rejected (reason : ε)
deriving Repr, DecidableEq

/-- Model of the `status` field of a `PromiseSettledResult`. -/
def SettledResult.status {ε α : Type} : SettledResult ε α → String
  | .fulfilled _ => "fulfilled"
  | .rejected _ => "rejected"

/-- Model of `Promise.all` over an already-determined list of promise
outcomes: fulfilled with the list of values when every promise fulfils,
rejected with the first rejection reason (in list order) otherwise. -/
def promiseAll {ε α : Type} : List (Except ε α) → Except ε (List α)
  | [] => .ok []
  | .ok a :: rs => (promiseAll rs).map (fun xs => a :: xs)
  | .error e :: _ => .error e

/-- Model of `Promise.allSettled` over an already-determined list of
promise outcomes: never rejects, records each outcome. -/
def allSettled {ε α : Type} (rs : List (Except ε α)) : List (SettledResult ε α) :=
  rs.map fun r =>
    match r with
    | .ok a => .fulfilled a
    | .error e => .rejected e

/-- Model of `UploadFileResponse` from `src/FS/index.tsx`
(`status`, `ok`, optional `error`, optional `failedUploads`). -/
structure UploadFileResponse (ε α : Type) where
  status : String
  ok : Bool
  error : Option ε
  failedUploads : Option (List (SettledResult ε α))
deriving Repr, DecidableEq

/-- Translation of `uploadFiles` (lines 117-163 of `src/FS/index.tsx`).
The network is the environment `net`, mapping each issued request to its
promise outcome.  The outer `Except` is the promise returned by the
`async` function: `.ok` = it resolves, `.error` = it rejects.  The
`strict` branch translates `try { await Promise.all; ... } catch { ... }`;
the non-strict branch translates the `Promise.allSettled` partition with
the source's comparison `resolve.status === 'rejected'` and the
length test `rejecteds.length === resolves.length`. -/
def uploadFiles {ε α : Type} (net : Request → Except ε α)
    (files : List FileToUpload) (strict : Bool) :
    Except ε (UploadFileResponse ε α) :=
  let promises := files.map fun file => net (mkRequest file)
  if strict then
    match promiseAll promises with
    | .ok _ =>
        .ok { status := "ALL_FILES_UPLOADED", ok := true
              error := none, failedUploads := none }
    | .error e =>
        .ok { status := "AN_UPLOAD_FAILED", ok := false
              error := some e, failedUploads := none }
  else
    let resolves := allSettled promises
    let rejecteds := resolves.filter fun r => r.status == "rejected"
    if rejecteds.length == resolves.length then
      .ok { status := "ONE_OR_MORE_UPLOADS_FAILED", ok := false
            error := none, failedUploads := some rejecteds }
    else
      .ok { status := "ONE_OR_MORE_UPLOADS_FAILED", ok := true
            error := none, failedUploads := some rejecteds }

/-- Specification-side characterisation of the reason `Promise.all`
rejects with: the first rejection reason in list order, `none` when every
promise fulfils. -/
def firstError {ε α : Type} : List (Except ε α) → Option ε
  | [] => none
  | .ok _ :: rs => firstError rs
  | .error e :: _ => some e

/-- Specification-side list of settled results of exactly the rejected
requests, in order: what the spec calls "the failed subset". -/
def failedOf {ε α : Type} (rs : List (Except ε α)) : List (SettledResult ε α) :=
  rs.filterMap fun r =>
    match r with
    | .ok _ => none
    | .error e => some (.rejected e)

/-- Model of the fields of an `ImagePickerResponse` read by the handlers
(`assets`, `didCancel`, `errorCode`, `errorMessage`); `didCancel` being
`undefined` is identified with `false`, and a present `errorCode`
(a non-empty error-code string, hence truthy) with `some`. -/
structure ImagePickerResponse (A E : Type) where
  assets : Option A
  didCancel : Bool
  errorCode : Option E
  errorMessage : Option String
deriving Repr, DecidableEq

/-- Observable trace of a picker handler run: each callback invocation,
with its arguments, in order. -/
inductive PickerCall (A E : Type) where
  | success (assets : Option A)
  | failure (code : E) (message : Option String)
deriving Repr, DecidableEq

/-- Translation of `handleImageLibraryResponse` (lines 164-174 of
`src/FS/index.tsx`), as the trace of callback invocations it performs:
return on `didCancel`; call `failure(errorCode, errorMessage)` when an
error code is present (without returning); then call `success(assets)`. -/
def handleImageLibraryResponse {A E : Type} (response : ImagePickerResponse A E) :
    List (PickerCall A E) :=
  if response.didCancel then []
  else
    (match response.errorCode with
     | some code => [PickerCall.failure code response.errorMessage]
     | none => []) ++ [PickerCall.success response.assets]

/-- Translation of `handleCameraResponse` (lines 37-47 of
`src/Camera/index.tsx`); its body is identical to
`handleImageLibraryResponse`. -/
def handleCameraResponse {A E : Type} (response : ImagePickerResponse A E) :
    List (PickerCall A E) :=
  if response.didCancel then []
  else
    (match response.errorCode with
     | some code => [PickerCall.failure code response.errorMessage]
     | none => []) ++ [PickerCall.success response.assets]

/-- Observable trace of `handleFilePickerPromise`: the document-picker
error callback is called with the error alone (`failure(error)`). -/
inductive FilePickerCall (R E : Type) where
  | success (result : R)
  | failure (error : E)
deriving Repr, DecidableEq

/-- Translation of `handleFilePickerPromise` (lines 176-192 of
`src/FS/index.tsx`): await the picker promise; on fulfilment call
`success(result)`; on rejection, return silently when
`DocumentPicker.isCancel(error)` holds, otherwise call `failure(error)`.
The cancellation test of the external document-picker library is the
environment parameter `isCancel`. -/
def handleFilePickerPromise {R E : Type} (isCancel : E → Bool)
    (promise : Except E R) : List (FilePickerCall R E) :=
  match promise with
  | .ok result => [FilePickerCall.success result]
  | .error e => if isCancel e then [] else [FilePickerCall.failure e]

/-- Concrete sample upload item with an image MIME type. -/
def sampleImageFile : FileToUpload :=
  { data := { uri := "a", type := "image/png", fileName := some "a.png", name := none }
    uploadUrl := "u1" }

/-- Concrete sample upload item with a non-image MIME type. -/
def samplePdfFile : FileToUpload :=
  { data := { uri := "b", type := "application/pdf", fileName := none, name := some "b.pdf" }
    uploadUrl := "u2" }

/-- Concrete network environment in which every request fulfils. -/
def netAllOk : Request → Except String Nat := fun _ => Except.ok 0

/-- Concrete network environment in which every request rejects. -/
def netAllFail : Request → Except String Nat := fun _ => Except.error "boom"

/-- Concrete network environment in which exactly the request to `u2` rejects. -/
def netFailOnU2 : Request → Except String Nat :=
  fun r => if r.url = "u2" then Except.error "boom" else Except.ok 1

/-- Concrete cancelled image-picker response. -/
def cancelResponse : ImagePickerResponse Nat String :=
  { assets := none, didCancel := true, errorCode := none, errorMessage := none }

/-- Concrete non-cancelled image-picker response reporting an error. -/
def errorResponse : ImagePickerResponse Nat String :=
  { assets := some 7, didCancel := false
    errorCode := some "permission", errorMessage := some "denied" }

/-- Concrete document-picker cancellation test that recognises everything
as a cancellation. -/
def isCancelAlways : String → Bool := fun _ => true

theorem promiseAll_ok_of_forall_ok {ε α : Type} (rs : List (Except ε α))
    (h : ∀ r ∈ rs, ∃ a, r = Except.ok a) : ∃ xs, promiseAll rs = Except.ok xs := by
  induction rs with
  | nil => exact ⟨[], rfl⟩
  | cons r rs ih =>
    obtain ⟨a, ha⟩ := h r (List.mem_cons_self r rs)
    obtain ⟨xs, hxs⟩ := ih fun x hx => h x (List.mem_cons_of_mem _ hx)
    subst ha
    exact ⟨a :: xs, by simp [promiseAll, hxs, Except.map]⟩

theorem promiseAll_error_of_firstError {ε α : Type} (rs : List (Except ε α)) (e : ε)
    (h : firstError rs = some e) : promiseAll rs = Except.error e := by
  induction rs with
  | nil => simp [firstError] at h
  | cons r rs ih =>
    cases r with
    | ok a =>
      simp only [firstError] at h
      simp [promiseAll, ih h, Except.map]
    | error e2 =>
      simp only [firstError, Option.some.injEq] at h
      subst h
      rfl

theorem firstError_isSome_of_error_mem {ε α : Type} (rs : List (Except ε α))
    (h : ∃ r ∈ rs, ∃ e, r = Except.error e) : ∃ e, firstError rs = some e := by
  induction rs with
  | nil => simp at h
  | cons r rs ih =>
    cases r with
    | ok a =>
      obtain ⟨x, hx, e, hxe⟩ := h
      rcases List.mem_cons.mp hx with h1 | h2
      · rw [h1] at hxe; exact absurd hxe (by simp)
      · simpa [firstError] using ih ⟨x, h2, e, hxe⟩
    | error e2 => exact ⟨e2, rfl⟩

theorem filter_rejected_eq_failedOf {ε α : Type} (rs : List (Except ε α)) :
    (allSettled rs).filter (fun r => r.status == "rejected") = failedOf rs := by
  induction rs with
  | nil => rfl
  | cons r rs ih =>
    cases r with
    | ok a =>
      simpa [allSettled, failedOf, SettledResult.status, List.filter_cons,
        List.filterMap_cons] using ih
    | error e =>
      simpa [allSettled, failedOf, SettledResult.status, List.filter_cons,
        List.filterMap_cons] using ih

theorem length_filter_rejected_lt {ε α : Type} (rs : List (Except ε α))
    (h : ∃ r ∈ rs, ∃ a, r = Except.ok a) :
    ((allSettled rs).filter (fun r => r.status == "rejected")).length <
      (allSettled rs).length := by
  apply List.length_filter_lt_length_iff_exists.mpr
  obtain ⟨r, hr, a, ha⟩ := h
  refine ⟨SettledResult.fulfilled a, ?_, ?_⟩
  · exact List.mem_map.mpr ⟨r, hr, by rw [ha]⟩
  · simp [SettledResult.status]

theorem filter_rejected_eq_self {ε α : Type} (rs : List (Except ε α))
    (h : ∀ r ∈ rs, ∃ e, r = Except.error e) :
    (allSettled rs).filter (fun r => r.status == "rejected") = allSettled rs := by
  apply List.filter_eq_self.mpr
  intro x hx
  obtain ⟨r, hr, hrx⟩ := List.mem_map.mp hx
  obtain ⟨e, he⟩ := h r hr
  rw [he] at hrx
  rw [← hrx]
  simp [SettledResult.status]

theorem failedOf_eq_allSettled {ε α : Type} (rs : List (Except ε α))
    (h : ∀ r ∈ rs, ∃ e, r = Except.error e) : failedOf rs = allSettled rs := by
  rw [← filter_rejected_eq_failedOf]
  exact filter_rejected_eq_self rs h

/-- C5: for every non-empty list of upload items in which every request
succeeds, `uploadFiles` with `strict = true` resolves with
`status = ALL_FILES_UPLOADED` and `ok = true`. -/
theorem uploadFiles_strict_all_succeed {ε α : Type} (net : Request → Except ε α)
    (files : List FileToUpload) (_hne : files ≠ [])
    (hsucc : ∀ f ∈ files, ∃ a, net (mkRequest f) = Except.ok a) :
    uploadFiles net files true = Except.ok
      { status := "ALL_FILES_UPLOADED", ok := true
        error := none, failedUploads := none } := by
  obtain ⟨xs, hxs⟩ := promiseAll_ok_of_forall_ok (files.map fun f => net (mkRequest f))
    (by intro r hr
        obtain ⟨f, hf, hfr⟩ := List.mem_map.mp hr
        exact hfr ▸ hsucc f hf)
  simp [uploadFiles, hxs]

/-- C5 witness: two items (one image, one PDF), every request succeeds,
`strict = true`. -/
theorem uploadFiles_strict_all_succeed_witness :
    uploadFiles netAllOk [sampleImageFile, samplePdfFile] true = Except.ok
      { status := "ALL_FILES_UPLOADED", ok := true
        error := none, failedUploads := none } :=
  uploadFiles_strict_all_succeed netAllOk [sampleImageFile, samplePdfFile]
    (List.cons_ne_nil _ _) (by intro f hf; exact ⟨0, rfl⟩)

/-- C2: for every non-empty list of upload items in which at least one
request rejects, `uploadFiles` with `strict = true` resolves (it does not
reject) with `status = AN_UPLOAD_FAILED`, `ok = false`, carrying the
first rejection reason in list order, and no individual results
(`failedUploads = none`). -/
theorem uploadFiles_strict_failfast {ε α : Type} (net : Request → Except ε α)
    (files : List FileToUpload) (_hne : files ≠ [])
    (hfail : ∃ f ∈ files, ∃ e, net (mkRequest f) = Except.error e) :
    uploadFiles net files true = Except.ok
      { status := "AN_UPLOAD_FAILED", ok := false
        error := firstError (files.map fun f => net (mkRequest f))
        failedUploads := none } := by
  obtain ⟨e, he⟩ := firstError_isSome_of_error_mem (files.map fun f => net (mkRequest f))
    (by obtain ⟨f, hf, e, hfe⟩ := hfail
        exact ⟨net (mkRequest f), List.mem_map.mpr ⟨f, hf, rfl⟩, e, hfe⟩)
  have hp := promiseAll_error_of_firstError _ e he
  simp [uploadFiles, hp, he]

/-- C2 witness: two items, the second request rejects, `strict = true`. -/
theorem uploadFiles_strict_failfast_witness :
    uploadFiles netFailOnU2 [sampleImageFile, samplePdfFile] true = Except.ok
      { status := "AN_UPLOAD_FAILED", ok := false
        error := firstError ([sampleImageFile, samplePdfFile].map
          fun f => netFailOnU2 (mkRequest f))
        failedUploads := none } :=
  uploadFiles_strict_failfast netFailOnU2 [sampleImageFile, samplePdfFile]
    (List.cons_ne_nil _ _)
    ⟨samplePdfFile, List.mem_cons_of_mem _ (List.mem_cons_self _ _), "boom", rfl⟩

/-- C1: for every non-empty list of upload items in which at least one
request succeeds, `uploadFiles` with `strict = false` resolves with
`ok = true` and `failedUploads` containing exactly the settled results of
the requests that rejected (possibly empty). -/
theorem uploadFiles_nonstrict_partial_success {ε α : Type} (net : Request → Except ε α)
    (files : List FileToUpload) (_hne : files ≠ [])
    (hsucc : ∃ f ∈ files, ∃ a, net (mkRequest f) = Except.ok a) :
    uploadFiles net files false = Except.ok
      { status := "ONE_OR_MORE_UPLOADS_FAILED", ok := true
        error := none
        failedUploads := some (failedOf (files.map fun f => net (mkRequest f))) } := by
  have hlt := length_filter_rejected_lt (files.map fun f => net (mkRequest f))
    (by obtain ⟨f, hf, a, hfa⟩ := hsucc
        exact ⟨net (mkRequest f), List.mem_map.mpr ⟨f, hf, rfl⟩, a, hfa⟩)
  rw [filter_rejected_eq_failedOf] at hlt
  have hbeq : ((failedOf (files.map fun f => net (mkRequest f))).length ==
      (allSettled (files.map fun f => net (mkRequest f))).length) = false :=
    beq_eq_false_iff_ne.mpr (Nat.ne_of_lt hlt)
  simp only [uploadFiles]
  rw [filter_rejected_eq_failedOf, hbeq]
  simp

/-- C1 witness: two items, the second request rejects, `strict = false`. -/
theorem uploadFiles_nonstrict_partial_success_witness :
    uploadFiles netFailOnU2 [sampleImageFile, samplePdfFile] false = Except.ok
      { status := "ONE_OR_MORE_UPLOADS_FAILED", ok := true
        error := none
        failedUploads := some (failedOf ([sampleImageFile, samplePdfFile].map
          fun f => netFailOnU2 (mkRequest f))) } :=
  uploadFiles_nonstrict_partial_success netFailOnU2 [sampleImageFile, samplePdfFile]
    (List.cons_ne_nil _ _) ⟨sampleImageFile, List.mem_cons_self _ _, 1, rfl⟩

/-- C3: for every non-empty list of upload items in which every request
rejects, `uploadFiles` with `strict = false` resolves with `ok = false`
(distinct from the `ok = true` of the partial-success outcome) and
`failedUploads` containing the rejected results of all items: one settled
rejection per item. -/
theorem uploadFiles_nonstrict_all_failed {ε α : Type} (net : Request → Except ε α)
    (files : List FileToUpload) (_hne : files ≠ [])
    (hfail : ∀ f ∈ files, ∃ e, net (mkRequest f) = Except.error e) :
    (uploadFiles net files false = Except.ok
      { status := "ONE_OR_MORE_UPLOADS_FAILED", ok := false
        error := none
        failedUploads := some (failedOf (files.map fun f => net (mkRequest f))) }) ∧
    (failedOf (files.map fun f => net (mkRequest f))).length = files.length := by
  have hall : ∀ r ∈ files.map (fun f => net (mkRequest f)), ∃ e, r = Except.error e := by
    intro r hr
    obtain ⟨f, hf, hfr⟩ := List.mem_map.mp hr
    exact hfr ▸ hfail f hf
  have heq := failedOf_eq_allSettled (files.map fun f => net (mkRequest f)) hall
  constructor
  · simp only [uploadFiles]
    rw [filter_rejected_eq_failedOf, heq]
    simp
  · rw [heq]
    simp [allSettled]

/-- C3 witness: one item, its request rejects, `strict = false`. -/
theorem uploadFiles_nonstrict_all_failed_witness :
    (uploadFiles netAllFail [sampleImageFile] false = Except.ok
      { status := "ONE_OR_MORE_UPLOADS_FAILED", ok := false
        error := none
        failedUploads := some (failedOf ([sampleImageFile].map
          fun f => netAllFail (mkRequest f))) }) ∧
    (failedOf ([sampleImageFile].map fun f => netAllFail (mkRequest f))).length =
      [sampleImageFile].length :=
  uploadFiles_nonstrict_all_failed netAllFail [sampleImageFile]
    (List.cons_ne_nil _ _) (by intro f hf; exact ⟨"boom", rfl⟩)

/-- C7: for every network environment, every list of upload items (whose
payloads carry a MIME-type string, as all values of `FileData` do) and
both values of `strict`, `uploadFiles` resolves with a typed outcome
value: the returned promise is `Except.ok`, never `Except.error`. -/
theorem uploadFiles_always_resolves {ε α : Type} (net : Request → Except ε α)
    (files : List FileToUpload) (strict : Bool) :
    ∃ r, uploadFiles net files strict = Except.ok r := by
  cases strict with
  | true =>
    cases hp : promiseAll (files.map fun f => net (mkRequest f)) with
    | ok xs =>
      refine ⟨{ status := "ALL_FILES_UPLOADED", ok := true
                error := none, failedUploads := none }, ?_⟩
      simp [uploadFiles, hp]
    | error e =>
      refine ⟨{ status := "AN_UPLOAD_FAILED", ok := false
                error := some e, failedUploads := none }, ?_⟩
      simp [uploadFiles, hp]
  | false =>
    cases hb : (((allSettled (files.map fun f => net (mkRequest f))).filter
        fun r => r.status == "rejected").length ==
          (allSettled (files.map fun f => net (mkRequest f))).length) with
    | true =>
      refine ⟨{ status := "ONE_OR_MORE_UPLOADS_FAILED", ok := false
                error := none
                failedUploads := some ((allSettled (files.map
                  fun f => net (mkRequest f))).filter
                    fun r => r.status == "rejected") }, ?_⟩
      simp only [uploadFiles]
      rw [hb]
      simp
    | false =>
      refine ⟨{ status := "ONE_OR_MORE_UPLOADS_FAILED", ok := true
                error := none
                failedUploads := some ((allSettled (files.map
                  fun f => net (mkRequest f))).filter
                    fun r => r.status == "rejected") }, ?_⟩
      simp only [uploadFiles]
      rw [hb]
      simp

/-- C4 counterexample: on the empty item list with `strict = false`, in a
network environment where every request would succeed, `uploadFiles` does
not resolve with an overall-ok success outcome: it resolves with
`status = ONE_OR_MORE_UPLOADS_FAILED` and `ok = false` (the all-failed
branch, since `0 === 0`), refuting the claim for `strict = false`. -/
theorem uploadFiles_empty_nonstrict_counterexample :
    (uploadFiles netAllOk [] false = Except.ok
      { status := "ONE_OR_MORE_UPLOADS_FAILED", ok := false
        error := none, failedUploads := some [] }) ∧
    Except.map UploadFileResponse.ok (uploadFiles netAllOk [] false) ≠
      Except.ok true := by
  constructor
  · rfl
  · intro h
    exact absurd (Except.ok.inj h) (by decide)

/-- C4 amended: on the empty item list, `uploadFiles` with `strict = true`
resolves with the all-succeeded outcome (`ALL_FILES_UPLOADED`, ok true),
but with `strict = false` it resolves with the all-failed-shaped outcome
(`ONE_OR_MORE_UPLOADS_FAILED`, ok false) carrying an empty
`failedUploads` list. -/
theorem uploadFiles_empty_list_amended {ε α : Type} (net : Request → Except ε α) :
    (uploadFiles net [] true = Except.ok
      { status := "ALL_FILES_UPLOADED", ok := true
        error := none, failedUploads := none }) ∧
    (uploadFiles net [] false = Except.ok
      { status := "ONE_OR_MORE_UPLOADS_FAILED", ok := false
        error := none, failedUploads := some [] }) :=
  ⟨rfl, rfl⟩

/-- C6: the multipart form field of the request built for an upload item
is named `image` when the item's MIME-type string contains the substring
`image`, and `file` otherwise. -/
theorem mkRequest_field_name (file : FileToUpload) :
    (jsIncludes file.data.type "image" = true →
      (mkRequest file).field.fieldName = "image") ∧
    (jsIncludes file.data.type "image" = false →
      (mkRequest file).field.fieldName = "file") := by
  constructor <;> intro h <;> simp [mkRequest, determineFileOrImage, h]

/-- C6 witness: a `type = image/png` payload maps to field `image`, and a
`type = application/pdf` payload maps to field `file`. -/
theorem mkRequest_field_name_witness :
    (mkRequest sampleImageFile).field.fieldName = "image" ∧
    (mkRequest samplePdfFile).field.fieldName = "file" :=
  ⟨(mkRequest_field_name sampleImageFile).1 (by decide),
   (mkRequest_field_name samplePdfFile).2 (by decide)⟩

/-- C8: a picker cancellation invokes no callback at all: on an
image-library or camera response with `didCancel` set, the handler's
trace is empty, and a document-picker rejection recognised as a
cancellation by `isCancel` resolves as a no-op with an empty trace. -/
theorem picker_cancellation_silent {A E R : Type} :
    (∀ r : ImagePickerResponse A E, r.didCancel = true →
      handleImageLibraryResponse r = []) ∧
    (∀ r : ImagePickerResponse A E, r.didCancel = true →
      handleCameraResponse r = []) ∧
    (∀ isCancel : E → Bool, ∀ e : E, isCancel e = true →
      (handleFilePickerPromise isCancel (Except.error e) :
        List (FilePickerCall R E)) = []) := by
  refine ⟨?_, ?_, ?_⟩
  · intro r h
    simp [handleImageLibraryResponse, h]
  · intro r h
    simp [handleCameraResponse, h]
  · intro isCancel e h
    simp [handleFilePickerPromise, h]

/-- C8 witness: a cancelled image-library response, a cancelled camera
response, and a document-picker rejection recognised as a cancellation,
each yielding an empty callback trace. -/
theorem picker_cancellation_silent_witness :
    handleImageLibraryResponse cancelResponse = [] ∧
    handleCameraResponse cancelResponse = [] ∧
    (handleFilePickerPromise isCancelAlways (Except.error "closed") :
      List (FilePickerCall Nat String)) = [] :=
  ⟨(@picker_cancellation_silent Nat String Nat).1 cancelResponse rfl,
   (@picker_cancellation_silent Nat String Nat).2.1 cancelResponse rfl,
   (@picker_cancellation_silent Nat String Nat).2.2 isCancelAlways "closed" rfl⟩

/-- C9: on every non-cancelled image-library or camera response reporting
an error code, the error callback is invoked with the platform-reported
code and message forwarded verbatim. -/
theorem picker_error_forwarded_verbatim {A E : Type} (r : ImagePickerResponse A E)
    (hnc : r.didCancel = false) (code : E) (hc : r.errorCode = some code) :
    PickerCall.failure code r.errorMessage ∈ handleImageLibraryResponse r ∧
    PickerCall.failure code r.errorMessage ∈ handleCameraResponse r := by
  constructor <;> simp [handleImageLibraryResponse, handleCameraResponse, hnc, hc]

/-- C9 witness: a non-cancelled response carrying the code `permission`
and message `denied`, forwarded unmodified to the error callback. -/
theorem picker_error_forwarded_verbatim_witness :
    PickerCall.failure "permission" (some "denied") ∈
      handleImageLibraryResponse errorResponse ∧
    PickerCall.failure "permission" (some "denied") ∈
      handleCameraResponse errorResponse :=
  picker_error_forwarded_verbatim errorResponse rfl "permission" rfl

/-- C10: on every image-library or camera response with `didCancel` false
and an error code present, the handler invokes the error callback and
then also the success callback with the response's `assets` field: the
error branch does not return early, so both callbacks fire. -/
theorem picker_error_calls_both_callbacks {A E : Type} (r : ImagePickerResponse A E)
    (hnc : r.didCancel = false) (code : E) (hc : r.errorCode = some code) :
    handleImageLibraryResponse r =
      [PickerCall.failure code r.errorMessage, PickerCall.success r.assets] ∧
    handleCameraResponse r =
      [PickerCall.failure code r.errorMessage, PickerCall.success r.assets] := by
  constructor <;> simp [handleImageLibraryResponse, handleCameraResponse, hnc, hc]

/-- C10 witness: a non-cancelled response with an error code, whose
handler trace contains the failure call followed by the success call. -/
theorem picker_error_calls_both_callbacks_witness :
    handleImageLibraryResponse errorResponse =
      [PickerCall.failure "permission" (some "denied"),
       PickerCall.success (some 7)] ∧
    handleCameraResponse errorResponse =
      [PickerCall.failure "permission" (some "denied"),
       PickerCall.success (some 7)] :=
  picker_error_calls_both_callbacks errorResponse rfl "permission" rfl

end Toolbox
